import Mathlib

/-!
Verification development for the NGMC chatbot repository
(source files: Backend/app.py and Server.py).

The Python source is shallowly embedded: strings become `List Char`,
Python dictionaries produced by `json.loads` become association lists in
insertion order (later duplicate keys overwrite the stored value in
place, as for Python dicts), fallible code returns `Option` / `Except`,
and the Mongo/Django stores become explicit record states threaded
through the handler functions.
-/

set_option maxHeartbeats 1000000

namespace Ngm

/-- Abbreviation used to write character lists from string literals. -/
def tl (s : String) : List Char := s.toList

/-! ## JSON values

Model of the values produced by Python `json.loads`.  Numbers keep their
source lexeme (no claim depends on the numeric value, only on zeroness,
which is recoverable from the lexeme). -/

inductive Json where
  | null : Json
  | bool (b : Bool) : Json
  | num (lex : List Char) : Json
  | str (s : List Char) : Json
  | arr (xs : List Json) : Json
  | obj (kvs : List (List Char × Json)) : Json

/-- Python dict insert semantics: an existing key keeps its position and
gets the new value; a new key is appended. -/
def insertKV (kvs : List (List Char × Json)) (k : List Char) (v : Json) :
    List (List Char × Json) :=
  match kvs with
  | [] => [(k, v)]
  | (k', v') :: rest =>
    if k' = k then (k', v) :: rest else (k', v') :: insertKV rest k v

/-- Python `dict.get`: first (unique) binding of the key, else `None`. -/
def jlookup (kvs : List (List Char × Json)) (k : List Char) : Option Json :=
  match kvs with
  | [] => none
  | (k', v) :: rest => if k' = k then some v else jlookup rest k

/-! ## Character helpers -/

/-- JSON whitespace characters skipped by the Python decoder. -/
def isWs (c : Char) : Bool := c = ' ' || c = '\t' || c = '\n' || c = '\r'

def skipWs (s : List Char) : List Char := s.dropWhile isWs

def isDigit (c : Char) : Bool := '0' ≤ c && c ≤ '9'

/-- Hex digit value, accepting both letter cases (as `\uXXXX` does). -/
def hexVal (c : Char) : Option Nat :=
  if isDigit c then some (c.toNat - 48)
  else if 'a' ≤ c && c ≤ 'f' then some (c.toNat - 87)
  else if 'A' ≤ c && c ≤ 'F' then some (c.toNat - 55)
  else none

/-- Prepend a character to the content part of a string-parse result. -/
def mapCons (c : Char) (o : Option (List Char × List Char)) :
    Option (List Char × List Char) :=
  o.map (fun p => (c :: p.1, p.2))

/-- Scalar value of a surrogate pair. -/
def combineSurrogate (hi lo : Nat) : Nat :=
  0x10000 + (hi - 0xD800) * 0x400 + (lo - 0xDC00)

/-- Token of a JSON string body: a directly decoded character, or the
UTF-16 code unit of a `\uXXXX` escape (surrogates are paired in a
second pass, as the CPython `scanstring` does with its lookahead). -/
inductive StrTok where
  | raw (c : Char) : StrTok
  | unit (v : Nat) : StrTok

/-- Prepend a token to the token part of a lexer result. -/
def tcons (t : StrTok) (o : Option (List StrTok × List Char)) :
    Option (List StrTok × List Char) :=
  o.map (fun p => (t :: p.1, p.2))

/-- Lex a JSON string body after the opening quote, mirroring the
strict CPython `scanstring`: raw control characters are rejected, the
eight short escapes are decoded, `\uXXXX` yields a code-unit token. -/
def lexString : List Char → Option (List StrTok × List Char)
  | [] => none
  | c :: rest =>
    if c = '"' then some ([], rest)
    else if c = '\\' then
      match rest with
      | [] => none
      | e :: r2 =>
        if e = '"' then tcons (.raw '"') (lexString r2)
        else if e = '\\' then tcons (.raw '\\') (lexString r2)
        else if e = '/' then tcons (.raw '/') (lexString r2)
        else if e = 'b' then tcons (.raw (Char.ofNat 8)) (lexString r2)
        else if e = 'f' then tcons (.raw (Char.ofNat 12)) (lexString r2)
        else if e = 'n' then tcons (.raw '\n') (lexString r2)
        else if e = 'r' then tcons (.raw '\r') (lexString r2)
        else if e = 't' then tcons (.raw '\t') (lexString r2)
        else if e = 'u' then
          match r2 with
          | h1 :: h2 :: h3 :: h4 :: r3 =>
            match hexVal h1, hexVal h2, hexVal h3, hexVal h4 with
            | some a, some b, some c1, some d =>
              tcons (.unit (((a * 16 + b) * 16 + c1) * 16 + d)) (lexString r3)
            | _, _, _, _ => none
          | _ => none
        else none
    else if c.toNat < 0x20 then none
    else tcons (.raw c) (lexString rest)

/-- Combine adjacent high/low surrogate code units (from adjacent
`\uXXXX` escapes) into one character; a lone surrogate, which Lean
`Char` cannot represent, goes through `Char.ofNat` (modelling
approximation; no claim touches lone surrogates). -/
def pairUnits : List StrTok → List Char
  | [] => []
  | .raw c :: rest => c :: pairUnits rest
  | [.unit v] => [Char.ofNat v]
  | .unit v :: .raw c :: rest => Char.ofNat v :: c :: pairUnits rest
  | .unit v :: .unit w :: rest =>
    if 0xD800 ≤ v && v < 0xDC00 && 0xDC00 ≤ w && w < 0xE000 then
      Char.ofNat (combineSurrogate v w) :: pairUnits rest
    else Char.ofNat v :: pairUnits (StrTok.unit w :: rest)

/-- Body of a JSON string, after the opening quote: the decoded content
and the remaining input after the closing quote. -/
def parseStringBody (s : List Char) : Option (List Char × List Char) :=
  (lexString s).map (fun p => (pairUnits p.1, p.2))

/-- Fractional part `.digits+` of a number lexeme, if present. -/
def parseFrac (s : List Char) : List Char × List Char :=
  match s with
  | c :: rest =>
    if c = '.' then
      let ds := rest.takeWhile isDigit
      if ds.isEmpty then ([], s) else (c :: ds, rest.dropWhile isDigit)
    else ([], s)
  | [] => ([], s)

/-- Exponent part `[eE][+-]?digits+` of a number lexeme, if present. -/
def parseExp (s : List Char) : List Char × List Char :=
  match s with
  | c :: rest =>
    if c = 'e' || c = 'E' then
      match rest with
      | c2 :: rest2 =>
        if c2 = '+' || c2 = '-' then
          let ds := rest2.takeWhile isDigit
          if ds.isEmpty then ([], s) else (c :: c2 :: ds, rest2.dropWhile isDigit)
        else
          let ds := rest.takeWhile isDigit
          if ds.isEmpty then ([], s) else (c :: ds, rest.dropWhile isDigit)
      | [] => ([], s)
    else ([], s)
  | [] => ([], s)

/-- Number lexeme per the CPython decoder regex:
`(-?(0|[1-9][0-9]*))(\.[0-9]+)?([eE][+-]?[0-9]+)?`. -/
def parseNumLex (s : List Char) : Option (List Char × List Char) :=
  let sp : List Char × List Char :=
    match s with
    | c :: r => if c = '-' then ([c], r) else ([], s)
    | [] => ([], s)
  match sp.2 with
  | [] => none
  | c :: r =>
    if c = '0' then
      let fr := parseFrac r
      let ex := parseExp fr.2
      some (sp.1 ++ [c] ++ fr.1 ++ ex.1, ex.2)
    else if isDigit c then
      let ds := (c :: r).takeWhile isDigit
      let rest1 := (c :: r).dropWhile isDigit
      let fr := parseFrac rest1
      let ex := parseExp fr.2
      some (sp.1 ++ ds ++ fr.1 ++ ex.1, ex.2)
    else none

/-- Expect a fixed literal continuation (the tails of `true`, `null`, ...). -/
def constAfter (pat s : List Char) : Option (List Char) :=
  if pat.isPrefixOf s then some (s.drop pat.length) else none

mutual

/-- One JSON value at the head of the input (whitespace already
skipped), mirroring the CPython `scan_once`.  `fuel` only bounds value
nesting; every recursive call consumes at least one character, so
`length + 1` fuel is always sufficient. -/
def parseValue : Nat → List Char → Option (Json × List Char)
  | 0, _ => none
  | f + 1, s =>
    match s with
    | [] => none
    | c :: rest =>
      if c = '{' then
        let s1 := skipWs rest
        match s1 with
        | c2 :: r2 => if c2 = '}' then some (.obj [], r2) else parseMembers f s1 []
        | [] => none
      else if c = '[' then
        let s1 := skipWs rest
        match s1 with
        | c2 :: r2 => if c2 = ']' then some (.arr [], r2) else parseElems f s1 []
        | [] => none
      else if c = '"' then (parseStringBody rest).map (fun p => (.str p.1, p.2))
      else if c = 't' then (constAfter (tl "rue") rest).map (fun r => (.bool true, r))
      else if c = 'f' then (constAfter (tl "alse") rest).map (fun r => (.bool false, r))
      else if c = 'n' then (constAfter (tl "ull") rest).map (fun r => (.null, r))
      else if c = 'N' then (constAfter (tl "aN") rest).map (fun r => (.num (tl "NaN"), r))
      else if c = 'I' then
        (constAfter (tl "nfinity") rest).map (fun r => (.num (tl "Infinity"), r))
      else if c = '-' then
        match parseNumLex s with
        | some p => some (.num p.1, p.2)
        | none =>
          (constAfter (tl "Infinity") rest).map (fun r => (.num (tl "-Infinity"), r))
      else if isDigit c then (parseNumLex s).map (fun p => (.num p.1, p.2))
      else none

/-- Members of a JSON object, positioned at a (whitespace-skipped)
property name; `acc` holds the bindings read so far. -/
def parseMembers : Nat → List Char → List (List Char × Json) →
    Option (Json × List Char)
  | 0, _, _ => none
  | f + 1, s, acc =>
    match s with
    | [] => none
    | c :: rest =>
      if c = '"' then
        match parseStringBody rest with
        | none => none
        | some (key, r1) =>
          match skipWs r1 with
          | [] => none
          | c2 :: r2 =>
            if c2 = ':' then
              match parseValue f (skipWs r2) with
              | none => none
              | some (v, r3) =>
                let acc1 := insertKV acc key v
                match skipWs r3 with
                | [] => none
                | c3 :: r4 =>
                  if c3 = ',' then parseMembers f (skipWs r4) acc1
                  else if c3 = '}' then some (.obj acc1, r4)
                  else none
            else none
      else none

/-- Elements of a JSON array, positioned at a (whitespace-skipped)
value. -/
def parseElems : Nat → List Char → List Json → Option (Json × List Char)
  | 0, _, _ => none
  | f + 1, s, acc =>
    match parseValue f s with
    | none => none
    | some (v, r1) =>
      match skipWs r1 with
      | [] => none
      | c :: r2 =>
        if c = ',' then parseElems f (skipWs r2) (acc ++ [v])
        else if c = ']' then some (.arr (acc ++ [v]), r2)
        else none

end

/-- Model of Python `json.loads`: skip leading whitespace, read one
value, allow only trailing whitespace (otherwise `Extra data`). -/
def json_loads (s : List Char) : Option Json :=
  match parseValue (s.length + 1) (skipWs s) with
  | some (v, rest) => if (skipWs rest).isEmpty then some v else none
  | none => none

/-! ## Python truthiness of decoded JSON values -/

/-- A numeric lexeme denotes zero iff its mantissa has no nonzero digit
(`NaN` and the infinities are nonzero). -/
def numIsZero (lex : List Char) : Bool :=
  (lex.takeWhile (fun c => c ≠ 'e' && c ≠ 'E')).all
    (fun c => c = '-' || c = '0' || c = '.') &&
  !(lex.contains 'I' || lex.contains 'N')

/-- Python truthiness of a decoded JSON value. -/
def truthy : Option Json → Bool
  | none => false
  | some .null => false
  | some (.bool b) => b
  | some (.num lex) => !numIsZero lex
  | some (.str s) => !s.isEmpty
  | some (.arr xs) => !xs.isEmpty
  | some (.obj kvs) => !kvs.isEmpty

/-! ## Reply extractor (Backend/app.py, `extract_json_from_response`) -/

def replyKey : List Char := tl "reply"
def titleKey : List Char := tl "title"
def defaultTitle : List Char := tl "NGMC Query Response"

/-- The literal `"reply"` (with quotes) searched by the tier-2 regex. -/
def quotedReply : List Char := '"' :: tl "reply" ++ ['"']

/-- The literal `"title"` (with quotes) searched by the tier-2 regex. -/
def quotedTitle : List Char := '"' :: tl "title" ++ ['"']

/-- Suffix of `s` strictly after the first occurrence of `pat`. -/
def afterSub (pat : List Char) : List Char → Option (List Char)
  | [] => none
  | c :: rest =>
    if pat.isPrefixOf (c :: rest) then some (List.drop pat.length (c :: rest))
    else afterSub pat rest

/-- After an opening brace, does the remainder contain `"reply"`, then
`"title"`, then a closing brace, in that order?  (Equivalent to the
existence of any such ordered triple of occurrences, by taking first
occurrences greedily.) -/
def hasRTB (t : List Char) : Bool :=
  match afterSub quotedReply t with
  | none => false
  | some t1 =>
    match afterSub quotedTitle t1 with
    | none => false
    | some t2 => t2.contains '}'

/-- First suffix of `s` starting at a brace that admits a tier-2 match. -/
def findBraceStart : List Char → Option (List Char)
  | [] => none
  | c :: rest =>
    if c = '{' && hasRTB rest then some (c :: rest) else findBraceStart rest

/-- Prefix of `s` ending at its last closing brace (inclusive). -/
def upToLastBrace (s : List Char) : List Char :=
  (s.reverse.dropWhile (fun c => c ≠ '}')).reverse

/-- Span matched by `re.search` of the tier-2 pattern (an opening brace,
then `"reply"`, then `"title"`, then a closing brace, with arbitrary
characters between): `re.search` takes the leftmost feasible start, and
greedy `[\s\S]*` stretches the match to the last closing brace of the
text. -/
def tier2Span (s : List Char) : Option (List Char) :=
  match findBraceStart s with
  | none => none
  | some suf => some (upToLastBrace suf)

/-- Tier-3 fallback object `{reply: <text>, title: "NGMC Query Response"}`. -/
def fallbackObj (resp : List Char) : Json :=
  .obj [(replyKey, .str resp), (titleKey, .str defaultTitle)]

/-- Tiers 2 and 3 of the extractor (reached when the whole-text parse
fails, or succeeds as a dict that lacks truthy `reply`/`title`). -/
def tier23 (resp : List Char) : Except Unit Json :=
  match tier2Span resp with
  | some t =>
    match json_loads t with
    | some w => .ok w
    | none => .ok (fallbackObj resp)
  | none => .ok (fallbackObj resp)

/-- `extract_json_from_response` (app.py lines 322-337).  The Python
`try` block catches only `json.JSONDecodeError`; when the whole text
parses to a non-dict value, `parsed.get` raises an uncaught
`AttributeError`, modelled as `Except.error ()`. -/
def extract_json_from_response (resp : List Char) : Except Unit Json :=
  match json_loads resp with
  | some (Json.obj kvs) =>
    if truthy (jlookup kvs replyKey) && truthy (jlookup kvs titleKey) then
      .ok (Json.obj kvs)
    else tier23 resp
  | some _ => .error ()
  | none => tier23 resp

/-- Python subscript `parsed[key]` on a decoded value: `none` models the
`KeyError` (absent key) or `TypeError` (non-dict) that Django turns into
a 500 response. -/
def jget (v : Json) (k : List Char) : Option Json :=
  match v with
  | .obj kvs => jlookup kvs k
  | _ => none

/-! ## Validation helpers (Backend/app.py lines 339-358) -/

def msgRequiredErr : List Char := tl "Valid message is required"
def msgTooLongErr : List Char := tl "Message too long (max 1000 chars)"

/-- `validate_message` (app.py lines 339-344): Python `not msg` is true
exactly for the empty string. -/
def validate_message (msg : List Char) : Option (List Char) :=
  if msg.isEmpty then some msgRequiredErr
  else if msg.length > 1000 then some msgTooLongErr
  else none

/-- Characters removed by Python `str.strip()` (the ASCII whitespace
set; further Unicode space characters are not modelled). -/
def pyIsSpace (c : Char) : Bool :=
  c = ' ' || c = '\t' || c = '\n' || c = '\r' || c = Char.ofNat 11 || c = Char.ofNat 12

/-- Python `str.strip()`. -/
def pyStrip (s : List Char) : List Char :=
  ((s.dropWhile pyIsSpace).reverse.dropWhile pyIsSpace).reverse

/-- Segment of `s` after its last occurrence of `sep`
(`s.split(sep)[-1]`); the whole string when `sep` is absent. -/
def afterLast (sep : Char) (s : List Char) : List Char :=
  (s.reverse.takeWhile (fun c => c ≠ sep)).reverse

/-- `validate_user_data` (app.py lines 346-358); the `password`
argument is accepted but never validated. -/
def validate_user_data (userName email : List Char) : Option (List Char) :=
  if userName.isEmpty || (pyStrip userName).isEmpty then some (tl "Valid userName is required")
  else if email.isEmpty || (pyStrip email).isEmpty then some (tl "Valid email is required")
  else if (pyStrip userName).length > 100 then some (tl "Username too long (max 100 chars)")
  else if (pyStrip email).length > 200 then some (tl "Email too long (max 200 chars)")
  else if !email.contains '@' then some (tl "Invalid email format")
  else if !(afterLast '@' email).contains '.' then some (tl "Invalid email format")
  else none

/-! ## Store model (Backend/app.py MongoDB collections)

Mongo `_id`s are modelled as naturals drawn from a fresh counter
(`nextId`); list order of each collection is insertion (`_id`) order.
Creation timestamps are naturals drawn from a clock (`time`). -/

inductive Role where
  | user : Role
  | ai : Role
deriving DecidableEq

structure PyUser where
  id : Nat
  userName : List Char
  email : List Char
  password : List Char

structure PyChat where
  id : Nat
  title : Json
  user_id : Option Nat
  created_at : Nat

structure Conv where
  chat_id : Nat
  role : Role
  message : Json
  created_at : Nat

structure DB where
  users : List PyUser
  chats : List PyChat
  convs : List Conv
  nextId : Nat
  time : Nat

/-- `Conversation.filter_by_chat_last_n` (app.py lines 200-211):
`find({'chat_id': chat.id}).sort('_id', -1).limit(n)` — that chat's
turns in reverse insertion order, truncated to `n`.  (Server.py lines
277: `filter(chat=chat).order_by('-id')[:10]` is the same selection.) -/
def filter_by_chat_last_n (convs : List Conv) (cid : Nat) (n : Nat) : List Conv :=
  ((convs.filter (fun c => c.chat_id = cid)).reverse).take n

/-- `Chat.get` (app.py lines 140-145): `find_one({'_id': id})`. -/
def chatGet (db : DB) (cid : Nat) : Option PyChat :=
  db.chats.find? (fun c => c.id = cid)

/-- `update_one({'_id': id}, {'$set': ...})`: rewrite the first record
with the given id, leave the rest alone. -/
def updateFirstChat (chats : List PyChat) (ch : PyChat) : List PyChat :=
  match chats with
  | [] => []
  | c :: cs =>
    if c.id = ch.id then
      { c with title := ch.title, user_id := ch.user_id, created_at := ch.created_at } :: cs
    else c :: updateFirstChat cs ch

/-- `Chat.save` (app.py lines 161-165). -/
def chatSave (db : DB) (ch : PyChat) : DB :=
  { db with chats := updateFirstChat db.chats ch }

/-- `users_collection.update_one({'_id': id}, {'$set': fields})`. -/
def updateFirstUser (users : List PyUser) (u : PyUser) : List PyUser :=
  match users with
  | [] => []
  | x :: xs =>
    if x.id = u.id then { x with userName := u.userName, password := u.password } :: xs
    else x :: updateFirstUser xs u

/-- `get_or_create_user` (app.py lines 360-381): look the user up by
email; update `userName` always when different and `password` when the
submitted password is truthy and different; otherwise insert a fresh
user record. -/
def get_or_create_user (db : DB) (userName email password : List Char) :
    PyUser × DB :=
  match db.users.find? (fun u => u.email = email) with
  | some u =>
    let u1 := if u.userName = userName then u else { u with userName := userName }
    let u2 :=
      if !password.isEmpty && u.password ≠ password then { u1 with password := password }
      else u1
    let newUsers :=
      if u2.userName = u.userName && u2.password = u.password then db.users
      else updateFirstUser db.users u2
    (u2, { db with users := newUsers })
  | none =>
    let u : PyUser := ⟨db.nextId, userName, email, password⟩
    (u, { db with users := db.users ++ [u], nextId := db.nextId + 1 })

/-! ## Model gateway (Backend/app.py `call_chatgpt`, lines 294-320) -/

structure Msg where
  role : List Char
  content : Json

/-- The external completion call is an oracle from the request messages
to `some` raw text or `none` (any exception inside the call). -/
structure Env where
  sysPrompt : List Char
  gpt : List Msg → Option (List Char)

/-- The fixed apology returned on any gateway failure. -/
def apologyText : List Char :=
  tl "I'm sorry, I'm having trouble processing your request right now. Please try again later."

/-- `call_chatgpt`: on success the content is stripped; on any exception
the fixed apology string is returned instead of propagating. -/
def call_chatgpt (gpt : List Msg → Option (List Char)) (msgs : List Msg) : List Char :=
  match gpt msgs with
  | some s => pyStrip s
  | none => apologyText

/-! ## Chat orchestration (Backend/app.py `post_chat` and
`continue_chat`) -/

/-- Handler outcome: HTTP 401 / 400 / 404 / 403 / 500, or a JSON reply. -/
inductive HResult where
  | unauthorized : HResult
  | badRequest (e : List Char) : HResult
  | notFound : HResult
  | forbidden : HResult
  | serverError : HResult
  | ok (reply : Json) : HResult

/-- Request body fields, after `body.get(key, '')` (absent fields are
the empty string, before stripping). -/
structure Body where
  message : List Char
  userName : List Char
  email : List Char
  password : List Char
  apikey : List Char

def apikeyConst : List Char := tl "Abkr212@ngmc"

/-- Store role to model role (app.py line 500):
`"assistant" if c.role=="AI" else "user"`. -/
def roleOf (r : Role) : List Char :=
  match r with
  | .ai => tl "assistant"
  | .user => tl "user"

/-- Prompt of a continuation request (app.py line 503). -/
def contPrompt (env : Env) (msg : List Char) : List Char :=
  env.sysPrompt ++ tl "\nUser Query: " ++ msg ++ tl "\nOutput JSON with reply only"

/-- Message list of a continuation request (app.py lines 499-504): the
last ten stored turns of the chat are fetched newest-first, mapped to
gateway roles, reversed back to chronological order, and the new user
message appended; a system message heads the list. -/
def build_messages (env : Env) (db : DB) (chat : PyChat) (msg : List Char) : List Msg :=
  ⟨tl "system", .str (contPrompt env msg)⟩ ::
    (((filter_by_chat_last_n db.convs chat.id 10).map
        (fun c => Msg.mk (roleOf c.role) c.message)).reverse
      ++ [⟨tl "user", .str msg⟩])

/-- Common tail of `continue_chat` after the ownership/adoption step
(app.py lines 499-518): build the context, call the gateway, extract,
save the chat and append the turn pair. -/
def continue_chat_tail (env : Env) (db : DB) (chat : PyChat) (msg : List Char) :
    HResult × DB :=
  let resp := call_chatgpt env.gpt (build_messages env db chat msg)
  match extract_json_from_response resp with
  | .error _ => (.serverError, db)
  | .ok parsed =>
    let db1 := chatSave db chat
    match jget parsed replyKey with
    | none => (.serverError, db1)
    | some r =>
      (.ok r,
        { db1 with
          convs := db1.convs ++
            [⟨chat.id, .user, .str msg, db1.time⟩, ⟨chat.id, .ai, r, db1.time + 1⟩],
          time := db1.time + 2 })

/-- `continue_chat` (app.py lines 450-518): strip the body fields,
check the in-body api key, validate message then user data, load the
chat, resolve the caller, enforce ownership, adopt ownerless chats,
then run the gateway tail. -/
def continue_chat (env : Env) (db : DB) (chat_id : Nat) (body : Body) :
    HResult × DB :=
  let msg := pyStrip body.message
  let uname := pyStrip body.userName
  let mail := pyStrip body.email
  let pw := pyStrip body.password
  if pyStrip body.apikey ≠ apikeyConst then (.unauthorized, db)
  else
    match validate_message msg with
    | some e => (.badRequest e, db)
    | none =>
      match validate_user_data uname mail with
      | some e => (.badRequest e, db)
      | none =>
        match chatGet db chat_id with
        | none => (.notFound, db)
        | some chat =>
          let ud := get_or_create_user db uname mail pw
          match chat.user_id with
          | some o =>
            if o ≠ ud.1.id then (.forbidden, ud.2)
            else continue_chat_tail env ud.2 chat msg
          | none =>
            let chat' := { chat with user_id := some ud.1.id }
            continue_chat_tail env (chatSave ud.2 chat') chat' msg

/-- Prompt of a start request (app.py line 425). -/
def startPrompt (env : Env) (msg : List Char) : List Char :=
  env.sysPrompt ++ tl "\nUser Query: " ++ msg ++ tl "\nOutput JSON with reply and title only"

/-- Message list of a start request (app.py line 426). -/
def post_messages (env : Env) (msg : List Char) : List Msg :=
  [⟨tl "system", .str (startPrompt env msg)⟩, ⟨tl "user", .str msg⟩]

/-- `post_chat` (app.py lines 394-441): strip and validate, resolve the
caller, call the gateway with empty history, extract, create the chat
with the extracted title, append the turn pair. -/
def post_chat (env : Env) (db : DB) (body : Body) : HResult × DB :=
  let msg := pyStrip body.message
  let uname := pyStrip body.userName
  let mail := pyStrip body.email
  let pw := pyStrip body.password
  match validate_message msg with
  | some e => (.badRequest e, db)
  | none =>
    match validate_user_data uname mail with
    | some e => (.badRequest e, db)
    | none =>
      let ud := get_or_create_user db uname mail pw
      let resp := call_chatgpt env.gpt (post_messages env msg)
      match extract_json_from_response resp with
      | .error _ => (.serverError, ud.2)
      | .ok parsed =>
        match jget parsed titleKey with
        | none => (.serverError, ud.2)
        | some t =>
          let chat : PyChat := ⟨ud.2.nextId, t, some ud.1.id, ud.2.time⟩
          let db2 := { ud.2 with chats := ud.2.chats ++ [chat], nextId := ud.2.nextId + 1 }
          match jget parsed replyKey with
          | none => (.serverError, db2)
          | some r =>
            (.ok r,
              { db2 with
                convs := db2.convs ++
                  [⟨chat.id, .user, .str msg, db2.time⟩, ⟨chat.id, .ai, r, db2.time + 1⟩],
                time := db2.time + 2 })

/-! ## Server.py variant (Django ORM backend)

Only the parts cited by the claims are modelled: its reply extractor
uses bare `except:` clauses (so a non-dict whole-text parse falls
through to tier 2 instead of raising), and its `continue_chat`
overwrites the chat title with the extracted one on every successful
continuation (Server.py lines 286-287). -/

/-- `extract_json_from_response` (Server.py lines 195-210). -/
def extract_json_from_response_server (resp : List Char) : Json :=
  match json_loads resp with
  | some (Json.obj kvs) =>
    if truthy (jlookup kvs replyKey) && truthy (jlookup kvs titleKey) then Json.obj kvs
    else
      match tier23 resp with
      | .ok v => v
      | .error _ => fallbackObj resp
  | _ =>
    match tier23 resp with
    | .ok v => v
    | .error _ => fallbackObj resp

structure SChat where
  id : Nat
  title : Json

structure SConv where
  chat_id : Nat
  role : Role
  message : Json

structure SDB where
  chats : List SChat
  convs : List SConv

def updateFirstSChat (chats : List SChat) (ch : SChat) : List SChat :=
  match chats with
  | [] => []
  | c :: cs => if c.id = ch.id then ch :: cs else c :: updateFirstSChat cs ch

/-- Prompt of a Server.py continuation (Server.py line 281): unlike
app.py it still demands a title in the model output. -/
def contPromptServer (env : Env) (msg : List Char) : List Char :=
  env.sysPrompt ++ tl "\nUser Query: " ++ msg ++ tl "\nOutput JSON with reply and title only"

/-- `continue_chat` (Server.py lines 258-292): validate, load, build
context, call the gateway, extract, then overwrite the chat title with
`parsed['title']` and save before appending the turn pair. -/
def continue_chat_server (env : Env) (db : SDB) (chat_id : Nat) (message : List Char) :
    HResult × SDB :=
  let msg := pyStrip message
  match validate_message msg with
  | some e => (.badRequest e, db)
  | none =>
    match db.chats.find? (fun c => c.id = chat_id) with
    | none => (.notFound, db)
    | some chat =>
      let hist := ((db.convs.filter (fun c => c.chat_id = chat.id)).reverse).take 10
      let msgs : List Msg :=
        ⟨tl "system", .str (contPromptServer env msg)⟩ ::
          ((hist.map (fun c => Msg.mk (roleOf c.role) c.message)).reverse
            ++ [⟨tl "user", .str msg⟩])
      let resp := call_chatgpt env.gpt msgs
      let parsed := extract_json_from_response_server resp
      match jget parsed titleKey with
      | none => (.serverError, db)
      | some t =>
        let chat' : SChat := ⟨chat.id, t⟩
        let db1 : SDB := ⟨updateFirstSChat db.chats chat', db.convs⟩
        match jget parsed replyKey with
        | none => (.serverError, db1)
        | some r =>
          (.ok r,
            ⟨db1.chats,
              db1.convs ++ [⟨chat.id, .user, .str msg⟩, ⟨chat.id, .ai, r⟩]⟩)

/-! ## Serialization (for the tier-1 round trip)

`serializeReply` is the JSON serialization of `{reply: x, title: y}`
with `json.dumps` default separators; characters are escaped with the
standard JSON escapes (the `ensure_ascii=False` form: quote, backslash
and control characters only). -/

def hexDig (n : Nat) : Char :=
  if n = 0 then '0' else if n = 1 then '1' else if n = 2 then '2'
  else if n = 3 then '3' else if n = 4 then '4' else if n = 5 then '5'
  else if n = 6 then '6' else if n = 7 then '7' else if n = 8 then '8'
  else if n = 9 then '9' else if n = 10 then 'a' else if n = 11 then 'b'
  else if n = 12 then 'c' else if n = 13 then 'd' else if n = 14 then 'e'
  else 'f'

/-- JSON escape of one character: quote and backslash get their short
escapes, the five short control escapes are used, other control
characters become `\u00XX`, everything else is emitted raw (the
`ensure_ascii=False` form of `json.dumps`). -/
def escapeChar (c : Char) : List Char :=
  if c = '"' then ['\\', '"']
  else if c = '\\' then ['\\', '\\']
  else if c.toNat = 8 then ['\\', 'b']
  else if c.toNat = 9 then ['\\', 't']
  else if c.toNat = 10 then ['\\', 'n']
  else if c.toNat = 12 then ['\\', 'f']
  else if c.toNat = 13 then ['\\', 'r']
  else if c.toNat < 0x20 then
    ['\\', 'u', '0', '0', hexDig (c.toNat / 16), hexDig (c.toNat % 16)]
  else [c]

/-- A JSON string literal for `s`. -/
def renderString (s : List Char) : List Char :=
  '"' :: (s.flatMap escapeChar ++ ['"'])

/-- `json.dumps({"reply": x, "title": y})` with the default separators:
the text `{"reply": <x escaped>, "title": <y escaped>}`, written in
right-nested cons form. -/
def serializeReply (x y : List Char) : List Char :=
  '{' :: '"' :: 'r' :: 'e' :: 'p' :: 'l' :: 'y' :: '"' :: ':' :: ' ' :: '"' ::
    (x.flatMap escapeChar ++ '"' :: ',' :: ' ' :: '"' :: 't' :: 'i' :: 't' :: 'l' :: 'e' ::
      '"' :: ':' :: ' ' :: '"' :: (y.flatMap escapeChar ++ '"' :: '}' :: []))

/-! ## Theorems -/

/-- C4: `validate_message` accepts exactly the messages of length 1 to
1000 characters: the empty message and every message longer than 1000
characters are rejected with an error, and no message of length 1 to
1000 ever is. -/
theorem C4_validate_message_range (msg : List Char) :
    validate_message msg = none ↔ 1 ≤ msg.length ∧ msg.length ≤ 1000 := by
  unfold validate_message
  rcases msg with _ | ⟨c, cs⟩
  · simp
  · simp only [List.isEmpty_cons, Bool.false_eq_true, if_false, List.length_cons]
    split_ifs with h
    · simp only [reduceCtorEq, false_iff, not_and, not_le]
      omega
    · simp only [true_iff]
      omega

/-- Store used to refute C2's ordering clause: one chat with two turns,
created at times 3 and then 7. -/
def c2store : List Conv :=
  [⟨1, Role.user, Json.str (tl "a"), 3⟩, ⟨1, Role.ai, Json.str (tl "b"), 7⟩]

/-- C2 counterexample: `filter_by_chat_last_n` itself returns the
selected window newest first, not in ascending creation-time order —
on a two-turn chat it returns creation times `[7, 3]`. -/
theorem C2_counterexample :
    (filter_by_chat_last_n c2store 1 2).map Conv.created_at = [7, 3] ∧
    ¬ List.Chain' (fun a b => a ≤ b)
        ((filter_by_chat_last_n c2store 1 2).map Conv.created_at) := by
  refine ⟨rfl, ?_⟩
  intro h
  rw [show (filter_by_chat_last_n c2store 1 2).map Conv.created_at = [7, 3] from rfl] at h
  simp [List.chain'_cons] at h

/-- C2 (amended): `filter_by_chat_last_n` returns only turns of the
given chat, at most `n` of them, all of them when fewer than `n` exist,
in reverse chronological order (newest first); its reverse — which the
caller `continue_chat` computes with `[::-1]` — is the chronological
last-`n` window of the chat. -/
theorem C2_amended (convs : List Conv) (cid n : Nat)
    (hmono : List.Pairwise (fun a b => a.created_at ≤ b.created_at) convs) :
    (∀ c ∈ filter_by_chat_last_n convs cid n, c.chat_id = cid) ∧
    (filter_by_chat_last_n convs cid n).length ≤ n ∧
    ((convs.filter (fun c => c.chat_id = cid)).length ≤ n →
      filter_by_chat_last_n convs cid n =
        (convs.filter (fun c => c.chat_id = cid)).reverse) ∧
    List.Pairwise (fun a b => b.created_at ≤ a.created_at)
      (filter_by_chat_last_n convs cid n) ∧
    (filter_by_chat_last_n convs cid n).reverse =
      (convs.filter (fun c => c.chat_id = cid)).drop
        ((convs.filter (fun c => c.chat_id = cid)).length - n) := by
  refine ⟨?_, ?_, ?_, ?_, ?_⟩
  · intro c hc
    have h1 : c ∈ (convs.filter (fun c => c.chat_id = cid)).reverse :=
      List.mem_of_mem_take hc
    have h2 := List.of_mem_filter (List.mem_reverse.mp h1)
    exact of_decide_eq_true h2
  · exact List.length_take_le n _
  · intro hle
    unfold filter_by_chat_last_n
    apply List.take_of_length_le
    simpa using hle
  · have hf : List.Pairwise (fun a b => a.created_at ≤ b.created_at)
        (convs.filter (fun c => c.chat_id = cid)) := hmono.filter _
    have hr : List.Pairwise (fun a b => b.created_at ≤ a.created_at)
        ((convs.filter (fun c => c.chat_id = cid)).reverse) :=
      List.pairwise_reverse.mpr hf
    exact hr.sublist (List.take_sublist n _)
  · unfold filter_by_chat_last_n
    have h := (List.rtake_eq_reverse_take_reverse
      (l := convs.filter (fun c => c.chat_id = cid)) (n := n)).symm
    simpa [List.rtake] using h

/-- C2 witness: the amended statement evaluated on the two-turn store. -/
theorem C2_witness :
    (∀ c ∈ filter_by_chat_last_n c2store 1 2, c.chat_id = 1) ∧
    (filter_by_chat_last_n c2store 1 2).length ≤ 2 ∧
    ((c2store.filter (fun c => c.chat_id = 1)).length ≤ 2 →
      filter_by_chat_last_n c2store 1 2 =
        (c2store.filter (fun c => c.chat_id = 1)).reverse) ∧
    List.Pairwise (fun a b => b.created_at ≤ a.created_at)
      (filter_by_chat_last_n c2store 1 2) ∧
    (filter_by_chat_last_n c2store 1 2).reverse =
      (c2store.filter (fun c => c.chat_id = 1)).drop
        ((c2store.filter (fun c => c.chat_id = 1)).length - 2) :=
  C2_amended c2store 1 2 (by decide)

/-- C6: the message list of a continuation request is exactly one
system message, then the chronological last (at most) ten stored turns
of the chat with store role `AI` mapped to gateway role `assistant` and
store role `user` to `user`, then the new message as a trailing `user`
message; on a creation-time-monotone store the ten-turn window is
chronologically ordered. -/
theorem C6_message_list (env : Env) (db : DB) (chat : PyChat) (msg : List Char)
    (hmono : List.Pairwise (fun a b => a.created_at ≤ b.created_at) db.convs) :
    build_messages env db chat msg =
      ⟨tl "system", .str (contPrompt env msg)⟩ ::
        (((db.convs.filter (fun c => c.chat_id = chat.id)).drop
            ((db.convs.filter (fun c => c.chat_id = chat.id)).length - 10)).map
            (fun c => Msg.mk (roleOf c.role) c.message)
          ++ [⟨tl "user", .str msg⟩]) ∧
    (build_messages env db chat msg).length ≤ 12 ∧
    List.Pairwise (fun a b => a.created_at ≤ b.created_at)
      ((filter_by_chat_last_n db.convs chat.id 10).reverse) := by
  have hwin : (filter_by_chat_last_n db.convs chat.id 10).reverse =
      (db.convs.filter (fun c => c.chat_id = chat.id)).drop
        ((db.convs.filter (fun c => c.chat_id = chat.id)).length - 10) := by
    unfold filter_by_chat_last_n
    have h := (List.rtake_eq_reverse_take_reverse
      (l := db.convs.filter (fun c => c.chat_id = chat.id)) (n := 10)).symm
    simpa [List.rtake] using h
  refine ⟨?_, ?_, ?_⟩
  · unfold build_messages
    rw [← List.map_reverse, hwin]
  · unfold build_messages
    simp only [List.length_cons, List.length_append, List.length_reverse,
      List.length_map, List.length_nil]
    have := List.length_take_le 10
      ((db.convs.filter (fun c => c.chat_id = chat.id)).reverse)
    unfold filter_by_chat_last_n
    omega
  · rw [hwin]
    exact (hmono.filter _).sublist (List.drop_sublist _ _)

/-- Concrete environment and store for the C6 witness. -/
def c6env : Env := ⟨tl "S", fun _ => none⟩
def c6chat : PyChat := ⟨1, Json.str (tl "T"), none, 0⟩
def c6db : DB := ⟨[], [c6chat], c2store, 2, 10⟩

/-- C6 witness: the characterization evaluated on a concrete store. -/
theorem C6_witness :
    build_messages c6env c6db c6chat (tl "hi") =
      ⟨tl "system", .str (contPrompt c6env (tl "hi"))⟩ ::
        (((c6db.convs.filter (fun c => c.chat_id = c6chat.id)).drop
            ((c6db.convs.filter (fun c => c.chat_id = c6chat.id)).length - 10)).map
            (fun c => Msg.mk (roleOf c.role) c.message)
          ++ [⟨tl "user", .str (tl "hi")⟩]) ∧
    (build_messages c6env c6db c6chat (tl "hi")).length ≤ 12 ∧
    List.Pairwise (fun a b => a.created_at ≤ b.created_at)
      ((filter_by_chat_last_n c6db.convs c6chat.id 10).reverse) :=
  C6_message_list c6env c6db c6chat (tl "hi") (by decide)

/-- `get_or_create_user` touches only the user collection: chats are
untouched. -/
theorem get_or_create_user_chats (db : DB) (a b c : List Char) :
    (get_or_create_user db a b c).2.chats = db.chats := by
  unfold get_or_create_user
  split
  · rfl
  · rfl

/-- `get_or_create_user` touches only the user collection: turns are
untouched. -/
theorem get_or_create_user_convs (db : DB) (a b c : List Char) :
    (get_or_create_user db a b c).2.convs = db.convs := by
  unfold get_or_create_user
  split
  · rfl
  · rfl

/-- C5: on a chat with a recorded owner, a caller resolving to a
different user id gets `Forbidden`, and neither the chat collection nor
the turn collection changes (in particular the chat's turn sequence,
title and owner are untouched; only the caller's user record may have
been upserted). -/
theorem C5_forbidden_no_append (env : Env) (db : DB) (cid : Nat) (body : Body)
    (hkey : pyStrip body.apikey = apikeyConst)
    (hmsg : validate_message (pyStrip body.message) = none)
    (husr : validate_user_data (pyStrip body.userName) (pyStrip body.email) = none)
    (chat : PyChat) (hchat : chatGet db cid = some chat)
    (o : Nat) (howner : chat.user_id = some o)
    (hdiff : o ≠ (get_or_create_user db (pyStrip body.userName) (pyStrip body.email)
        (pyStrip body.password)).1.id) :
    (continue_chat env db cid body).1 = .forbidden ∧
    (continue_chat env db cid body).2.chats = db.chats ∧
    (continue_chat env db cid body).2.convs = db.convs := by
  unfold continue_chat
  rw [hkey]
  simp only [ne_eq, not_true_eq_false, if_false, hmsg, husr, hchat, howner, hdiff,
    if_true, ite_not]
  exact ⟨trivial, get_or_create_user_chats db _ _ _, get_or_create_user_convs db _ _ _⟩

/-- Concrete data for the C5 witness: the chat is owned by user 2, the
caller resolves to the stored user 1. -/
def w5user : PyUser := ⟨1, tl "n", tl "a@b.c", tl "p"⟩
def w5chat : PyChat := ⟨5, Json.str (tl "T"), some 2, 0⟩
def w5db : DB := ⟨[w5user], [w5chat], [], 10, 100⟩
def w5body : Body := ⟨tl "hi", tl "n", tl "a@b.c", tl "p", tl "Abkr212@ngmc"⟩
def w5env : Env := ⟨[], fun _ => none⟩

/-- C5 witness: the forbidden scenario evaluated on concrete data. -/
theorem C5_witness :
    (continue_chat w5env w5db 5 w5body).1 = .forbidden ∧
    (continue_chat w5env w5db 5 w5body).2.chats = w5db.chats ∧
    (continue_chat w5env w5db 5 w5body).2.convs = w5db.convs :=
  C5_forbidden_no_append w5env w5db 5 w5body rfl rfl rfl w5chat rfl 2 rfl (by decide)

/-- The extractor on the fixed apology text: the whole text is not
JSON and contains no brace, so tier 3 yields the apology as reply and
the default title. -/
theorem extract_apology :
    extract_json_from_response apologyText = .ok (fallbackObj apologyText) := rfl

/-- C3: when the gateway call fails (the external call raises), the
gateway substitutes the fixed apology string, and `post_chat` still
succeeds: it creates exactly one chat, titled with the default title,
and appends exactly the two turns user-message/apology. -/
theorem C3_gateway_failure (env : Env) (db : DB) (body : Body)
    (hmsg : validate_message (pyStrip body.message) = none)
    (husr : validate_user_data (pyStrip body.userName) (pyStrip body.email) = none)
    (hfail : env.gpt (post_messages env (pyStrip body.message)) = none) :
    call_chatgpt env.gpt (post_messages env (pyStrip body.message)) = apologyText ∧
    post_chat env db body =
      (.ok (Json.str apologyText),
        let ud := get_or_create_user db (pyStrip body.userName) (pyStrip body.email)
          (pyStrip body.password)
        { ud.2 with
          chats := ud.2.chats ++ [⟨ud.2.nextId, Json.str defaultTitle, some ud.1.id, ud.2.time⟩],
          nextId := ud.2.nextId + 1,
          convs := ud.2.convs ++
            [⟨ud.2.nextId, .user, .str (pyStrip body.message), ud.2.time⟩,
             ⟨ud.2.nextId, .ai, .str apologyText, ud.2.time + 1⟩],
          time := ud.2.time + 2 }) := by
  have hcall : call_chatgpt env.gpt (post_messages env (pyStrip body.message)) = apologyText := by
    unfold call_chatgpt
    rw [hfail]
  refine ⟨hcall, ?_⟩
  unfold post_chat
  simp only [hmsg, husr, hcall, extract_apology]
  rfl

/-- Concrete data for the C3 witness: valid body, failing gateway. -/
def w3db : DB := ⟨[], [], [], 10, 100⟩
def w3body : Body := ⟨tl "hi", tl "n", tl "a@b.c", tl "p", tl "Abkr212@ngmc"⟩
def w3env : Env := ⟨[], fun _ => none⟩

/-- C3 witness: the gateway-failure scenario evaluated concretely. -/
theorem C3_witness :
    call_chatgpt w3env.gpt (post_messages w3env (pyStrip w3body.message)) = apologyText ∧
    post_chat w3env w3db w3body =
      (.ok (Json.str apologyText),
        let ud := get_or_create_user w3db (pyStrip w3body.userName) (pyStrip w3body.email)
          (pyStrip w3body.password)
        { ud.2 with
          chats := ud.2.chats ++ [⟨ud.2.nextId, Json.str defaultTitle, some ud.1.id, ud.2.time⟩],
          nextId := ud.2.nextId + 1,
          convs := ud.2.convs ++
            [⟨ud.2.nextId, .user, .str (pyStrip w3body.message), ud.2.time⟩,
             ⟨ud.2.nextId, .ai, .str apologyText, ud.2.time + 1⟩],
          time := ud.2.time + 2 }) :=
  C3_gateway_failure w3env w3db w3body rfl rfl rfl

/-- Updating the first record with the saved chat's id rewrites exactly
that record. -/
theorem find_updateFirstChat (chats : List PyChat) (c ch : PyChat)
    (hfind : chats.find? (fun x => x.id = ch.id) = some c) :
    (updateFirstChat chats ch).find? (fun x => x.id = ch.id) =
      some { c with title := ch.title, user_id := ch.user_id, created_at := ch.created_at } := by
  induction chats with
  | nil => simp [List.find?] at hfind
  | cons x xs ih =>
    by_cases hx : x.id = ch.id
    · rw [List.find?_cons_of_pos _ (by simpa using hx)] at hfind
      cases hfind
      unfold updateFirstChat
      rw [if_pos hx]
      exact List.find?_cons_of_pos _ (by simpa using hx)
    · rw [List.find?_cons_of_neg _ (by simpa using hx)] at hfind
      unfold updateFirstChat
      rw [if_neg hx]
      rw [List.find?_cons_of_neg _ (by simpa using hx)]
      exact ih hfind

/-- Saving a chat whose title agrees with the stored first record of
that id leaves every chat's (id, title) pair unchanged. -/
theorem updateFirstChat_map_idTitle (chats : List PyChat) (ch : PyChat)
    (h : ∀ c, chats.find? (fun x => x.id = ch.id) = some c → c.title = ch.title) :
    (updateFirstChat chats ch).map (fun c => (c.id, c.title)) =
      chats.map (fun c => (c.id, c.title)) := by
  induction chats with
  | nil => rfl
  | cons x xs ih =>
    by_cases hx : x.id = ch.id
    · have hfx : (x :: xs).find? (fun y => y.id = ch.id) = some x :=
        List.find?_cons_of_pos _ (by simpa using hx)
      have ht : x.title = ch.title := h x hfx
      unfold updateFirstChat
      rw [if_pos hx]
      simp [ht]
    · unfold updateFirstChat
      rw [if_neg hx]
      simp only [List.map_cons, List.cons.injEq, true_and]
      refine ih ?_
      intro c hc
      refine h c ?_
      rw [List.find?_cons_of_neg _ (by simpa using hx)]
      exact hc

/-- The gateway tail of `continue_chat` changes no chat's (id, title)
pair: the only chat write is `chat.save()` with an unmodified title. -/
theorem continue_chat_tail_idTitle (env : Env) (db : DB) (chat : PyChat) (msg : List Char)
    (h : ∀ c, db.chats.find? (fun x => x.id = chat.id) = some c → c.title = chat.title) :
    (continue_chat_tail env db chat msg).2.chats.map (fun c => (c.id, c.title)) =
      db.chats.map (fun c => (c.id, c.title)) := by
  unfold continue_chat_tail
  dsimp only
  cases hx : extract_json_from_response
      (call_chatgpt env.gpt (build_messages env db chat msg)) with
  | error e => rfl
  | ok parsed =>
    dsimp only
    cases hg : jget parsed replyKey with
    | none => exact updateFirstChat_map_idTitle db.chats chat h
    | some r => exact updateFirstChat_map_idTitle db.chats chat h

/-- C7 (amended): the app.py `continue_chat` never changes any chat's
title — the title is written only by `post_chat` at creation.  (The
original claim fails for the Server.py variant, which overwrites the
title on every successful continuation; see the counterexample.) -/
theorem C7_amended_app_title_frame (env : Env) (db : DB) (cid : Nat) (body : Body) :
    (continue_chat env db cid body).2.chats.map (fun c => (c.id, c.title)) =
      db.chats.map (fun c => (c.id, c.title)) := by
  unfold continue_chat
  dsimp only
  split
  · rfl
  cases hv : validate_message (pyStrip body.message) with
  | some e => rfl
  | none =>
  cases hu : validate_user_data (pyStrip body.userName) (pyStrip body.email) with
  | some e => rfl
  | none =>
  cases hc : chatGet db cid with
  | none => rfl
  | some chat =>
  dsimp only
  have hid : chat.id = cid := by
    have h1 := List.find?_some hc
    simpa using h1
  have hfind : db.chats.find? (fun x => x.id = chat.id) = some chat := by
    unfold chatGet at hc
    simpa [hid] using hc
  have hgc := get_or_create_user_chats db (pyStrip body.userName) (pyStrip body.email)
    (pyStrip body.password)
  have hpred : ∀ c,
      (get_or_create_user db (pyStrip body.userName) (pyStrip body.email)
        (pyStrip body.password)).2.chats.find? (fun x => x.id = chat.id) = some c →
      c.title = chat.title := by
    intro c hcc
    rw [hgc, hfind] at hcc
    injection hcc with he
    rw [← he]
  split
  · -- recorded owner: Forbidden or the common tail on the unmodified chat
    split
    · rw [hgc]
    · rw [continue_chat_tail_idTitle env _ chat _ hpred, hgc]
  · -- ownerless chat: the adoption save changes the owner, not the title
    have hfind2 : (get_or_create_user db (pyStrip body.userName) (pyStrip body.email)
        (pyStrip body.password)).2.chats.find?
        (fun x => x.id = ({ chat with
          user_id := some (get_or_create_user db (pyStrip body.userName)
            (pyStrip body.email) (pyStrip body.password)).1.id } : PyChat).id) =
        some chat := by
      rw [hgc]
      exact hfind
    have hpred2 : ∀ c,
        (chatSave
          (get_or_create_user db (pyStrip body.userName) (pyStrip body.email)
            (pyStrip body.password)).2
          { chat with
            user_id := some (get_or_create_user db (pyStrip body.userName)
              (pyStrip body.email) (pyStrip body.password)).1.id }).chats.find?
          (fun x => x.id = ({ chat with
            user_id := some (get_or_create_user db (pyStrip body.userName)
              (pyStrip body.email) (pyStrip body.password)).1.id } : PyChat).id) = some c →
        c.title = ({ chat with
          user_id := some (get_or_create_user db (pyStrip body.userName)
            (pyStrip body.email) (pyStrip body.password)).1.id } : PyChat).title := by
      intro c hcc
      have h3 := find_updateFirstChat _ chat _ hfind2
      unfold chatSave at hcc
      rw [h3] at hcc
      injection hcc with he
      rw [← he]
    rw [continue_chat_tail_idTitle env _ _ _ hpred2]
    unfold chatSave
    rw [updateFirstChat_map_idTitle _ _ (by
      intro c hcc
      have h4 : (get_or_create_user db (pyStrip body.userName) (pyStrip body.email)
          (pyStrip body.password)).2.chats.find? (fun x => x.id = chat.id) = some c := hcc
      exact hpred c h4), hgc]

/-- Concrete data refuting C7 on the Server.py variant. -/
def x7env : Env :=
  ⟨[], fun _ => some (tl "\x7b\"reply\": \"A\", \"title\": \"New\"\x7d")⟩
def x7db : SDB := ⟨[⟨1, Json.str (tl "Old")⟩], []⟩

/-- C7 counterexample: a successful Server.py continuation overwrites
the stored chat title (here from "Old" to the extracted "New"), so the
claim that continuation never updates the stored title fails on that
variant. -/
theorem C7_counterexample :
    (continue_chat_server x7env x7db 1 (tl "hi")).1 = .ok (Json.str (tl "A")) ∧
    (continue_chat_server x7env x7db 1 (tl "hi")).2.chats =
      [⟨1, Json.str (tl "New")⟩] ∧
    x7db.chats = [⟨1, Json.str (tl "Old")⟩] ∧
    tl "New" ≠ tl "Old" := by
  refine ⟨rfl, rfl, rfl, ?_⟩
  decide

/-- Saving a chat record updates the record with its id: looking the id
up afterwards returns the saved fields. -/
theorem chatGet_after_save (db : DB) (ch : PyChat) (c : PyChat)
    (hfind : db.chats.find? (fun x => x.id = ch.id) = some c) :
    chatGet (chatSave db ch) ch.id =
      some { c with title := ch.title, user_id := ch.user_id, created_at := ch.created_at } := by
  unfold chatGet chatSave
  exact find_updateFirstChat db.chats c ch hfind

/-- The gateway tail never unsaves: on a successful result its state
holds the saved chat. -/
theorem continue_chat_tail_ok_chats (env : Env) (db : DB) (chat : PyChat)
    (msg : List Char) (r : Json)
    (h : (continue_chat_tail env db chat msg).1 = .ok r) :
    (continue_chat_tail env db chat msg).2.chats = updateFirstChat db.chats chat := by
  unfold continue_chat_tail at h ⊢
  dsimp only at h ⊢
  cases hx : extract_json_from_response
      (call_chatgpt env.gpt (build_messages env db chat msg)) with
  | error e =>
    rw [hx] at h
    exact HResult.noConfusion h
  | ok parsed =>
    rw [hx] at h
    dsimp only at h ⊢
    cases hg : jget parsed replyKey with
    | none =>
      rw [hg] at h
      exact HResult.noConfusion h
    | some r2 => rfl

/-- Generalization of `find_updateFirstChat` to an explicit looked-up
id. -/
theorem find_updateFirstChat_id (chats : List PyChat) (i : Nat) (c ch : PyChat)
    (hch : ch.id = i)
    (hfind : chats.find? (fun x => x.id = i) = some c) :
    (updateFirstChat chats ch).find? (fun x => x.id = i) =
      some { c with title := ch.title, user_id := ch.user_id, created_at := ch.created_at } := by
  induction chats with
  | nil => simp [List.find?] at hfind
  | cons x xs ih =>
    by_cases hx : x.id = i
    · rw [List.find?_cons_of_pos _ (by simpa using hx)] at hfind
      cases hfind
      unfold updateFirstChat
      rw [if_pos (hx.trans hch.symm)]
      exact List.find?_cons_of_pos _ (by simpa using hx)
    · rw [List.find?_cons_of_neg _ (by simpa using hx)] at hfind
      unfold updateFirstChat
      rw [if_neg (fun hh => hx (hh.trans hch))]
      rw [List.find?_cons_of_neg _ (by simpa using hx)]
      exact ih hfind

/-- C8: a successful `continue_chat` on an ownerless chat adopts the
caller: afterwards the stored chat record's owner is the resolved
caller's user id, persisted through `Chat.save`. -/
theorem C8_legacy_adoption (env : Env) (db : DB) (cid : Nat) (body : Body)
    (hkey : pyStrip body.apikey = apikeyConst)
    (hmsg : validate_message (pyStrip body.message) = none)
    (husr : validate_user_data (pyStrip body.userName) (pyStrip body.email) = none)
    (chat : PyChat) (hchat : chatGet db cid = some chat)
    (hfree : chat.user_id = none)
    (r : Json) (hok : (continue_chat env db cid body).1 = .ok r) :
    (chatGet (continue_chat env db cid body).2 cid).map PyChat.user_id =
      some (some (get_or_create_user db (pyStrip body.userName) (pyStrip body.email)
        (pyStrip body.password)).1.id) := by
  have hid : chat.id = cid := by simpa using List.find?_some hchat
  have hk2 : ¬ pyStrip body.apikey ≠ apikeyConst := fun h => h hkey
  generalize hud : get_or_create_user db (pyStrip body.userName) (pyStrip body.email)
    (pyStrip body.password) = ud
  have hcc : continue_chat env db cid body =
      continue_chat_tail env (chatSave ud.2 { chat with user_id := some ud.1.id })
        { chat with user_id := some ud.1.id } (pyStrip body.message) := by
    unfold continue_chat
    dsimp only
    rw [if_neg hk2, hmsg, husr, hchat]
    dsimp only
    rw [hfree, hud]
  rw [hcc] at hok ⊢
  have hchats := continue_chat_tail_ok_chats env _ _ _ r hok
  have hgc : ud.2.chats = db.chats := by
    rw [← hud]
    exact get_or_create_user_chats db _ _ _
  unfold chatGet
  rw [hchats]
  have hfind0 : db.chats.find? (fun x => x.id = cid) = some chat := hchat
  have hA := find_updateFirstChat_id db.chats cid chat
    { chat with user_id := some ud.1.id } hid hfind0
  have e1 : (chatSave ud.2 { chat with user_id := some ud.1.id }).chats =
      updateFirstChat db.chats { chat with user_id := some ud.1.id } := by
    unfold chatSave
    rw [hgc]
  rw [e1, find_updateFirstChat_id (updateFirstChat db.chats _) cid _
    { chat with user_id := some ud.1.id } hid hA]
  rfl

/-- Concrete data for the C8 witness: ownerless chat, valid body,
well-formed gateway reply. -/
def w8user : PyUser := ⟨1, tl "n", tl "a@b.c", tl "p"⟩
def w8chat : PyChat := ⟨5, Json.str (tl "T"), none, 0⟩
def w8db : DB := ⟨[w8user], [w8chat], [], 10, 100⟩
def w8body : Body := ⟨tl "hi", tl "n", tl "a@b.c", tl "p", tl "Abkr212@ngmc"⟩
def w8env : Env :=
  ⟨[], fun _ => some (tl "\x7b\"reply\": \"ok\", \"title\": \"t\"\x7d")⟩

/-- C8 witness: the adoption scenario evaluated on concrete data. -/
theorem C8_witness :
    (chatGet (continue_chat w8env w8db 5 w8body).2 5).map PyChat.user_id =
      some (some (get_or_create_user w8db (pyStrip w8body.userName) (pyStrip w8body.email)
        (pyStrip w8body.password)).1.id) :=
  C8_legacy_adoption w8env w8db 5 w8body rfl rfl rfl w8chat rfl rfl
    (Json.str (tl "ok")) rfl

/-- A string of whitespace strips to the empty string. -/
theorem pyStrip_all_space (m : List Char) (h : ∀ c ∈ m, pyIsSpace c) :
    pyStrip m = [] := by
  unfold pyStrip
  rw [List.dropWhile_eq_nil_iff.mpr h]
  rfl

/-- On success the gateway tail appends exactly a user turn carrying
the (stripped) message followed by one assistant turn. -/
theorem continue_chat_tail_ok_convs (env : Env) (db : DB) (chat : PyChat)
    (msg : List Char) (r : Json) (db' : DB)
    (h : continue_chat_tail env db chat msg = (.ok r, db')) :
    ∃ i t a, db'.convs = db.convs ++ [⟨i, Role.user, Json.str msg, t⟩, a] := by
  unfold continue_chat_tail at h
  dsimp only at h
  cases hx : extract_json_from_response
      (call_chatgpt env.gpt (build_messages env db chat msg)) with
  | error e =>
    rw [hx] at h
    simp at h
  | ok parsed =>
    rw [hx] at h
    dsimp only at h
    cases hg : jget parsed replyKey with
    | none =>
      rw [hg] at h
      simp at h
    | some r2 =>
      rw [hg] at h
      have h2 := congrArg Prod.snd h
      dsimp only at h2
      refine ⟨chat.id, (chatSave db chat).time,
        ⟨chat.id, Role.ai, r2, (chatSave db chat).time + 1⟩, ?_⟩
      rw [← h2]
      rfl

/-- C10: both handlers strip the submitted message before validation
and persistence — a whitespace-only message is rejected exactly like an
empty one (with the empty-message error, the store untouched), and a
successful request persists the stripped message as the user turn. -/
theorem C10_strip_before_validate_persist (env : Env) (db : DB) (cid : Nat) (body : Body) :
    ((∀ c ∈ body.message, pyIsSpace c) →
      post_chat env db body = (.badRequest msgRequiredErr, db) ∧
      (pyStrip body.apikey = apikeyConst →
        continue_chat env db cid body = (.badRequest msgRequiredErr, db))) ∧
    (∀ r db', post_chat env db body = (.ok r, db') →
      ∃ i t a, db'.convs = db.convs ++
        [⟨i, Role.user, Json.str (pyStrip body.message), t⟩, a]) ∧
    (∀ r db', continue_chat env db cid body = (.ok r, db') →
      ∃ i t a, db'.convs = db.convs ++
        [⟨i, Role.user, Json.str (pyStrip body.message), t⟩, a]) := by
  refine ⟨?_, ?_, ?_⟩
  · intro hws
    have hstrip := pyStrip_all_space body.message hws
    constructor
    · unfold post_chat
      dsimp only
      rw [hstrip]
      rfl
    · intro hkey
      have hk2 : ¬ pyStrip body.apikey ≠ apikeyConst := fun h => h hkey
      unfold continue_chat
      dsimp only
      rw [if_neg hk2, hstrip]
      rfl
  · intro r db' hpost
    generalize hud : get_or_create_user db (pyStrip body.userName) (pyStrip body.email)
      (pyStrip body.password) = ud at hpost
    unfold post_chat at hpost
    dsimp only at hpost
    rw [hud] at hpost
    cases hv : validate_message (pyStrip body.message) with
    | some e =>
      rw [hv] at hpost
      simp at hpost
    | none =>
      rw [hv] at hpost
      cases hu : validate_user_data (pyStrip body.userName) (pyStrip body.email) with
      | some e =>
        rw [hu] at hpost
        simp at hpost
      | none =>
        rw [hu] at hpost
        dsimp only at hpost
        cases hx : extract_json_from_response
            (call_chatgpt env.gpt (post_messages env (pyStrip body.message))) with
        | error e =>
          rw [hx] at hpost
          simp at hpost
        | ok parsed =>
          rw [hx] at hpost
          dsimp only at hpost
          cases ht : jget parsed titleKey with
          | none =>
            rw [ht] at hpost
            simp at hpost
          | some t =>
            rw [ht] at hpost
            dsimp only at hpost
            cases hr : jget parsed replyKey with
            | none =>
              rw [hr] at hpost
              simp at hpost
            | some r2 =>
              rw [hr] at hpost
              have h2 := congrArg Prod.snd hpost
              dsimp only at h2
              refine ⟨ud.2.nextId, ud.2.time,
                ⟨ud.2.nextId, Role.ai, r2, ud.2.time + 1⟩, ?_⟩
              rw [← h2]
              have hcv : ud.2.convs = db.convs := by
                rw [← hud]
                exact get_or_create_user_convs db _ _ _
              dsimp only
              rw [hcv]
  · intro r db' hres
    generalize hud : get_or_create_user db (pyStrip body.userName) (pyStrip body.email)
      (pyStrip body.password) = ud at hres
    have hcv : ud.2.convs = db.convs := by
      rw [← hud]
      exact get_or_create_user_convs db _ _ _
    unfold continue_chat at hres
    dsimp only at hres
    rw [hud] at hres
    by_cases hk : pyStrip body.apikey ≠ apikeyConst
    · rw [if_pos hk] at hres
      simp at hres
    · rw [if_neg hk] at hres
      cases hv : validate_message (pyStrip body.message) with
      | some e =>
        rw [hv] at hres
        simp at hres
      | none =>
        rw [hv] at hres
        cases hu : validate_user_data (pyStrip body.userName) (pyStrip body.email) with
        | some e =>
          rw [hu] at hres
          simp at hres
        | none =>
          rw [hu] at hres
          cases hc : chatGet db cid with
          | none =>
            rw [hc] at hres
            simp at hres
          | some chat =>
            rw [hc] at hres
            dsimp only at hres
            cases ho : chat.user_id with
            | some o =>
              rw [ho] at hres
              dsimp only at hres
              by_cases hd : o ≠ ud.1.id
              · rw [if_pos hd] at hres
                simp at hres
              · rw [if_neg hd] at hres
                have := continue_chat_tail_ok_convs env ud.2 chat (pyStrip body.message)
                  r db' hres
                rw [hcv] at this
                exact this
            | none =>
              rw [ho] at hres
              dsimp only at hres
              have := continue_chat_tail_ok_convs env
                (chatSave ud.2 { chat with user_id := some ud.1.id })
                { chat with user_id := some ud.1.id } (pyStrip body.message) r db' hres
              have hcv2 : (chatSave ud.2 { chat with user_id := some ud.1.id }).convs =
                  db.convs := hcv
              rw [hcv2] at this
              exact this

/-- Concrete data for the C10 witness. -/
def w10user : PyUser := ⟨1, tl "n", tl "a@b.c", tl "p"⟩
def w10chat : PyChat := ⟨5, Json.str (tl "T"), some 1, 0⟩
def w10db : DB := ⟨[w10user], [w10chat], [], 10, 100⟩
def w10ws : Body := ⟨tl "  \t ", tl "n", tl "a@b.c", tl "p", tl "Abkr212@ngmc"⟩
def w10ok : Body := ⟨tl " hi ", tl "n", tl "a@b.c", tl "p", tl "Abkr212@ngmc"⟩
def w10env : Env :=
  ⟨[], fun _ => some (tl "\x7b\"reply\": \"ok\", \"title\": \"t\"\x7d")⟩

/-- C10 witness: a whitespace-only message is rejected by both
handlers with the empty-message error, and a successful request with a
padded message persists the stripped user turn. -/
theorem C10_witness :
    (post_chat w10env w10db w10ws = (.badRequest msgRequiredErr, w10db) ∧
      (pyStrip w10ws.apikey = apikeyConst →
        continue_chat w10env w10db 5 w10ws = (.badRequest msgRequiredErr, w10db))) ∧
    (∃ i t a, (post_chat w10env w10db w10ok).2.convs = w10db.convs ++
      [⟨i, Role.user, Json.str (pyStrip w10ok.message), t⟩, a]) ∧
    (∃ i t a, (continue_chat w10env w10db 5 w10ok).2.convs = w10db.convs ++
      [⟨i, Role.user, Json.str (pyStrip w10ok.message), t⟩, a]) := by
  refine ⟨(C10_strip_before_validate_persist w10env w10db 5 w10ws).1 (by decide), ?_, ?_⟩
  · exact (C10_strip_before_validate_persist w10env w10db 5 w10ok).2.1
      (Json.str (tl "ok")) (post_chat w10env w10db w10ok).2 rfl
  · exact (C10_strip_before_validate_persist w10env w10db 5 w10ok).2.2
      (Json.str (tl "ok")) (continue_chat w10env w10db 5 w10ok).2 rfl

/-- Whether a decoded JSON value is an object (a Python dict). -/
def Json.isObj : Json → Bool
  | .obj _ => true
  | _ => false

/-- Value produced by tiers 2 and 3 of the extractor: the parse of the
tier-2 regex span when it exists and parses, else the tier-3 fallback
object. -/
def tier23val (s : List Char) : Json :=
  match tier2Span s with
  | some t =>
    match json_loads t with
    | some w => w
    | none => fallbackObj s
  | none => fallbackObj s

/-- Tiers 2 and 3 never raise. -/
theorem tier23_ok_eq (s : List Char) : tier23 s = .ok (tier23val s) := by
  unfold tier23 tier23val
  cases tier2Span s with
  | none => rfl
  | some t =>
    dsimp only
    cases json_loads t <;> rfl

/-- C1 counterexample: on the input `[1, 2]` — valid JSON that is not
an object — the whole-text parse succeeds, `parsed.get` raises an
uncaught `AttributeError`, and the extractor propagates it instead of
falling back; the claim that the extractor is total fails. -/
theorem C1_counterexample :
    extract_json_from_response (tl "[1, 2]") = Except.error () := rfl

/-- C1 (amended): the extractor raises exactly when the whole text
parses as a non-object JSON value; when the whole text parses as an
object with truthy `reply` and `title` values that object is returned
(tier 1); in every other case it returns the tier-2 span's parse when
the span exists and parses, else the tier-3 fallback
`(reply: entire text, title: "NGMC Query Response")`. -/
theorem C1_amended_extractor (s : List Char) :
    (extract_json_from_response s = .error () ↔
      ∃ v, json_loads s = some v ∧ v.isObj = false) ∧
    (∀ kvs, json_loads s = some (Json.obj kvs) →
      (truthy (jlookup kvs replyKey) && truthy (jlookup kvs titleKey)) = true →
      extract_json_from_response s = .ok (Json.obj kvs)) ∧
    ((json_loads s = none ∨
        ∃ kvs, json_loads s = some (Json.obj kvs) ∧
          (truthy (jlookup kvs replyKey) && truthy (jlookup kvs titleKey)) = false) →
      extract_json_from_response s = .ok (tier23val s)) := by
  have h23 := tier23_ok_eq s
  unfold extract_json_from_response
  cases hl : json_loads s with
  | none =>
    refine ⟨?_, ?_, fun _ => h23⟩
    · rw [h23]
      constructor
      · intro h
        exact Except.noConfusion h
      · rintro ⟨v, hv, -⟩
        exact Option.noConfusion hv
    · intro kvs hk
      exact Option.noConfusion hk
  | some v =>
    cases v with
    | obj kvs0 =>
      dsimp only
      by_cases htr : (truthy (jlookup kvs0 replyKey) && truthy (jlookup kvs0 titleKey)) = true
      · rw [if_pos htr]
        refine ⟨?_, ?_, ?_⟩
        · constructor
          · intro h
            exact Except.noConfusion h
          · rintro ⟨v, hv, hobj⟩
            injection hv with he
            rw [← he] at hobj
            exact Bool.noConfusion hobj
        · intro kvs' hk' _
          injection hk' with he
          injection he with he2
          rw [he2]
        · rintro (h | ⟨kvs', h', hnt⟩)
          · exact Option.noConfusion h
          · injection h' with he
            injection he with he2
            rw [← he2] at hnt
            rw [htr] at hnt
            exact Bool.noConfusion hnt
      · rw [if_neg htr]
        refine ⟨?_, ?_, fun _ => h23⟩
        · rw [h23]
          constructor
          · intro h
            exact Except.noConfusion h
          · rintro ⟨v, hv, hobj⟩
            injection hv with he
            rw [← he] at hobj
            exact Bool.noConfusion hobj
        · intro kvs' hk' htr2
          injection hk' with he
          injection he with he2
          rw [he2] at htr
          exact absurd htr2 htr
    | null =>
      refine ⟨⟨fun _ => ⟨Json.null, rfl, rfl⟩, fun _ => rfl⟩, ?_, ?_⟩
      · intro kvs hk
        injection hk with he
        exact Json.noConfusion he
      · rintro (h | ⟨kvs, h', -⟩)
        · exact Option.noConfusion h
        · injection h' with he
          exact Json.noConfusion he
    | bool b =>
      refine ⟨⟨fun _ => ⟨Json.bool b, rfl, rfl⟩, fun _ => rfl⟩, ?_, ?_⟩
      · intro kvs hk
        injection hk with he
        exact Json.noConfusion he
      · rintro (h | ⟨kvs, h', -⟩)
        · exact Option.noConfusion h
        · injection h' with he
          exact Json.noConfusion he
    | num lex =>
      refine ⟨⟨fun _ => ⟨Json.num lex, rfl, rfl⟩, fun _ => rfl⟩, ?_, ?_⟩
      · intro kvs hk
        injection hk with he
        exact Json.noConfusion he
      · rintro (h | ⟨kvs, h', -⟩)
        · exact Option.noConfusion h
        · injection h' with he
          exact Json.noConfusion he
    | str t =>
      refine ⟨⟨fun _ => ⟨Json.str t, rfl, rfl⟩, fun _ => rfl⟩, ?_, ?_⟩
      · intro kvs hk
        injection hk with he
        exact Json.noConfusion he
      · rintro (h | ⟨kvs, h', -⟩)
        · exact Option.noConfusion h
        · injection h' with he
          exact Json.noConfusion he
    | arr xs =>
      refine ⟨⟨fun _ => ⟨Json.arr xs, rfl, rfl⟩, fun _ => rfl⟩, ?_, ?_⟩
      · intro kvs hk
        injection hk with he
        exact Json.noConfusion he
      · rintro (h | ⟨kvs, h', -⟩)
        · exact Option.noConfusion h
        · injection h' with he
          exact Json.noConfusion he

/-- C1 witness: on plain prose (the spec's own example) the premises of
tier 2/3 hold and the extractor returns the tier-3 fallback. -/
theorem C1_witness :
    extract_json_from_response (tl "just plain prose") =
      .ok (fallbackObj (tl "just plain prose")) :=
  (C1_amended_extractor (tl "just plain prose")).2.2 (Or.inl rfl)

/-- Characters are determined by their code points. -/
theorem char_toNat_inj (c d : Char) (h : c.toNat = d.toNat) : c = d := by
  simpa [Char.ext_iff, UInt32.ext_iff] using h

/-- `hexDig` emits a digit that `hexVal` decodes back. -/
theorem hexVal_hexDig : ∀ n < 16, hexVal (hexDig n) = some n := by decide

/-- The token the lexer produces for one escaped source character. -/
def tokOf (c : Char) : StrTok :=
  if c.toNat < 0x20 &&
      !(c.toNat = 8 || c.toNat = 9 || c.toNat = 10 || c.toNat = 12 || c.toNat = 13) then
    .unit c.toNat
  else .raw c

/-- Lexing an escaped string recovers one token per source character,
leaving the input after the closing quote untouched. -/
theorem lexString_escape (s rest : List Char) :
    lexString (s.flatMap escapeChar ++ '"' :: rest) = some (s.map tokOf, rest) := by
  induction s with
  | nil =>
    show lexString ('"' :: rest) = some (List.map tokOf [], rest)
    rw [lexString.eq_def]
    simp only [Char.reduceEq, reduceIte, if_true, if_false, List.map_nil]
  | cons c s' ih =>
    rw [List.flatMap_cons, List.append_assoc, List.map_cons]
    by_cases h1 : c = '"'
    · subst h1
      rw [show escapeChar '"' = ['\\', '"'] from rfl,
        show tokOf '"' = StrTok.raw '"' from rfl]
      simp only [List.cons_append, List.nil_append]
      rw [lexString.eq_def]
      simp only [Char.reduceEq, reduceIte, if_true, if_false]
      rw [ih]
      rfl
    · by_cases h2 : c = '\\'
      · subst h2
        rw [show escapeChar '\\' = ['\\', '\\'] from rfl,
          show tokOf '\\' = StrTok.raw '\\' from rfl]
        simp only [List.cons_append, List.nil_append]
        rw [lexString.eq_def]
        simp only [Char.reduceEq, reduceIte, if_true, if_false]
        rw [ih]
        rfl
      · by_cases h3 : c.toNat = 8
        · have hc : c = Char.ofNat 8 := char_toNat_inj c (Char.ofNat 8) (by rw [h3]; rfl)
          subst hc
          rw [show escapeChar (Char.ofNat 8) = ['\\', 'b'] from rfl,
            show tokOf (Char.ofNat 8) = StrTok.raw (Char.ofNat 8) from rfl]
          simp only [List.cons_append, List.nil_append]
          rw [lexString.eq_def]
          simp only [Char.reduceEq, reduceIte, if_true, if_false]
          rw [ih]
          rfl
        · by_cases h4 : c.toNat = 9
          · have hc : c = '\t' := char_toNat_inj c '\t' (by rw [h4]; rfl)
            subst hc
            rw [show escapeChar '\t' = ['\\', 't'] from rfl,
              show tokOf '\t' = StrTok.raw '\t' from rfl]
            simp only [List.cons_append, List.nil_append]
            rw [lexString.eq_def]
            simp only [Char.reduceEq, reduceIte, if_true, if_false]
            rw [ih]
            rfl
          · by_cases h5 : c.toNat = 10
            · have hc : c = '\n' := char_toNat_inj c '\n' (by rw [h5]; rfl)
              subst hc
              rw [show escapeChar '\n' = ['\\', 'n'] from rfl,
                show tokOf '\n' = StrTok.raw '\n' from rfl]
              simp only [List.cons_append, List.nil_append]
              rw [lexString.eq_def]
              simp only [Char.reduceEq, reduceIte, if_true, if_false]
              rw [ih]
              rfl
            · by_cases h6 : c.toNat = 12
              · have hc : c = Char.ofNat 12 := char_toNat_inj c (Char.ofNat 12) (by rw [h6]; rfl)
                subst hc
                rw [show escapeChar (Char.ofNat 12) = ['\\', 'f'] from rfl,
                  show tokOf (Char.ofNat 12) = StrTok.raw (Char.ofNat 12) from rfl]
                simp only [List.cons_append, List.nil_append]
                rw [lexString.eq_def]
                simp only [Char.reduceEq, reduceIte, if_true, if_false]
                rw [ih]
                rfl
              · by_cases h7 : c.toNat = 13
                · have hc : c = '\r' := char_toNat_inj c '\r' (by rw [h7]; rfl)
                  subst hc
                  rw [show escapeChar '\r' = ['\\', 'r'] from rfl,
                    show tokOf '\r' = StrTok.raw '\r' from rfl]
                  simp only [List.cons_append, List.nil_append]
                  rw [lexString.eq_def]
                  simp only [Char.reduceEq, reduceIte, if_true, if_false]
                  rw [ih]
                  rfl
                · by_cases h8 : c.toNat < 0x20
                  · -- the \u00XX escape of a bare control character
                    have hesc : escapeChar c =
                        ['\\', 'u', '0', '0', hexDig (c.toNat / 16), hexDig (c.toNat % 16)] := by
                      unfold escapeChar
                      rw [if_neg h1, if_neg h2, if_neg h3, if_neg h4, if_neg h5, if_neg h6,
                        if_neg h7, if_pos h8]
                    have hhi : hexVal (hexDig (c.toNat / 16)) = some (c.toNat / 16) :=
                      hexVal_hexDig _ (by omega)
                    have hlo : hexVal (hexDig (c.toNat % 16)) = some (c.toNat % 16) :=
                      hexVal_hexDig _ (by omega)
                    have htok : tokOf c = .unit c.toNat := by
                      unfold tokOf
                      rw [if_pos]
                      simp [h3, h4, h5, h6, h7, h8]
                    rw [hesc, htok]
                    simp only [List.cons_append, List.nil_append]
                    rw [lexString.eq_def]
                    simp only [Char.reduceEq, reduceIte, if_true, if_false, hhi, hlo,
                      show hexVal '0' = some 0 from rfl]
                    rw [ih]
                    have harith : ((0 * 16 + 0) * 16 + c.toNat / 16) * 16 + c.toNat % 16 =
                        c.toNat := by omega
                    rw [harith]
                    rfl
                  · -- raw printable character
                    have hesc : escapeChar c = [c] := by
                      unfold escapeChar
                      rw [if_neg h1, if_neg h2, if_neg h3, if_neg h4, if_neg h5, if_neg h6,
                        if_neg h7, if_neg h8]
                    have htok : tokOf c = .raw c := by
                      unfold tokOf
                      rw [if_neg]
                      simp only [Bool.and_eq_true, decide_eq_true_eq]
                      intro hcontra
                      exact h8 hcontra.1
                    rw [hesc, htok]
                    simp only [List.cons_append, List.nil_append]
                    rw [lexString.eq_def]
                    dsimp only
                    rw [if_neg h1, if_neg h2, if_neg (by omega : ¬ c.toNat < 0x20)]
                    rw [ih]
                    rfl

/-- Pairing the tokens of an escaped string yields the source string:
escape tokens are never surrogates, so no pairing occurs. -/
theorem pairUnits_map_tokOf (s : List Char) : pairUnits (s.map tokOf) = s := by
  induction s with
  | nil => rfl
  | cons c s' ih =>
    by_cases hc : (c.toNat < 0x20 &&
        !(c.toNat = 8 || c.toNat = 9 || c.toNat = 10 || c.toNat = 12 || c.toNat = 13)) = true
    · have htok : tokOf c = .unit c.toNat := if_pos hc
      have hlt : c.toNat < 0x20 := by
        have h := ((Bool.and_eq_true _ _).mp hc).1
        simpa using h
      have hofnat : Char.ofNat c.toNat = c := Char.ofNat_toNat c
      rw [List.map_cons, htok]
      cases s' with
      | nil =>
        show pairUnits [StrTok.unit c.toNat] = [c]
        rw [pairUnits.eq_def]
        dsimp only
        rw [hofnat]
      | cons c2 s'' =>
        rw [List.map_cons]
        by_cases hc2 : (c2.toNat < 0x20 &&
            !(c2.toNat = 8 || c2.toNat = 9 || c2.toNat = 10 || c2.toNat = 12 ||
              c2.toNat = 13)) = true
        · have htok2 : tokOf c2 = .unit c2.toNat := if_pos hc2
          rw [htok2, pairUnits.eq_def]
          dsimp only
          rw [if_neg (by simp only [Bool.and_eq_true, decide_eq_true_eq]; omega)]
          rw [hofnat, ← htok2, ← List.map_cons, ih]
        · have htok2 : tokOf c2 = .raw c2 := if_neg hc2
          have ih2 : pairUnits (List.map tokOf s'') = s'' := by
            have h := ih
            rw [List.map_cons, htok2, pairUnits.eq_def] at h
            dsimp only at h
            exact ((List.cons.injEq _ _ _ _).mp h).2
          rw [htok2, pairUnits.eq_def]
          dsimp only
          rw [hofnat, ih2]
    · have htok : tokOf c = .raw c := if_neg hc
      rw [List.map_cons, htok, pairUnits.eq_def]
      dsimp only
      rw [ih]

/-- Decoding an escaped JSON string body recovers the source string. -/
theorem parseStringBody_escape (s rest : List Char) :
    parseStringBody (s.flatMap escapeChar ++ '"' :: rest) = some (s, rest) := by
  unfold parseStringBody
  rw [lexString_escape]
  show some (pairUnits (List.map tokOf s), rest) = some (s, rest)
  rw [pairUnits_map_tokOf]

/-- Parsing the literal key `reply`. -/
theorem parseStringBody_reply (R : List Char) :
    parseStringBody ('r' :: 'e' :: 'p' :: 'l' :: 'y' :: '"' :: R) = some (tl "reply", R) := by
  have h := parseStringBody_escape (tl "reply") R
  rw [show (tl "reply").flatMap escapeChar ++ '"' :: R =
    'r' :: 'e' :: 'p' :: 'l' :: 'y' :: '"' :: R from rfl] at h
  exact h

/-- Parsing the literal key `title`. -/
theorem parseStringBody_title (R : List Char) :
    parseStringBody ('t' :: 'i' :: 't' :: 'l' :: 'e' :: '"' :: R) = some (tl "title", R) := by
  have h := parseStringBody_escape (tl "title") R
  rw [show (tl "title").flatMap escapeChar ++ '"' :: R =
    't' :: 'i' :: 't' :: 'l' :: 'e' :: '"' :: R from rfl] at h
  exact h

/-- Parsing the serialized two-key object: four units of fuel suffice
for a flat object of two string members. -/
theorem parse_serializeReply (x y : List Char) (f : Nat) :
    parseValue (f + 1 + 1 + 1 + 1) (serializeReply x y) =
      some (Json.obj [(replyKey, Json.str x), (titleKey, Json.str y)], []) := by
  have hswq : ∀ T : List Char, skipWs ('"' :: T) = '"' :: T := fun _ => rfl
  have hswc : ∀ T : List Char, skipWs (':' :: T) = ':' :: T := fun _ => rfl
  have hswm : ∀ T : List Char, skipWs (',' :: T) = ',' :: T := fun _ => rfl
  have hswb : ∀ T : List Char, skipWs ('}' :: T) = '}' :: T := fun _ => rfl
  have hsws : ∀ T : List Char, skipWs (' ' :: T) = skipWs T := fun _ => rfl
  have hins0 : ∀ v : Json, insertKV [] (tl "reply") v = [(tl "reply", v)] := fun _ => rfl
  have hins1 : ∀ v w : Json, insertKV [(tl "reply", v)] (tl "title") w =
      [(tl "reply", v), (tl "title", w)] := fun _ _ => rfl
  unfold serializeReply
  simp only [parseValue, parseMembers, Char.reduceEq, reduceIte, if_true, if_false,
    Option.map_some', Option.map_none', hswq, hswc, hswm, hswb, hsws,
    parseStringBody_reply, parseStringBody_title, parseStringBody_escape, hins0, hins1]
  rfl

/-- `json.loads` of the serialization is exactly the two-key object. -/
theorem json_loads_serializeReply (x y : List Char) :
    json_loads (serializeReply x y) =
      some (Json.obj [(replyKey, Json.str x), (titleKey, Json.str y)]) := by
  unfold json_loads
  have hlen : 9 ≤ (serializeReply x y).length := by
    unfold serializeReply
    simp only [List.length_cons]
    omega
  obtain ⟨g, hg⟩ : ∃ g, (serializeReply x y).length + 1 = g + 1 + 1 + 1 + 1 :=
    ⟨(serializeReply x y).length - 3, by omega⟩
  rw [hg]
  rw [show skipWs (serializeReply x y) = serializeReply x y from rfl]
  rw [parse_serializeReply]
  rfl

/-- C9: the tier-1 round trip — extracting from the serialization of a
reply/title pair with non-empty components recovers exactly that pair. -/
theorem C9_roundtrip (x y : List Char) (hx : x ≠ []) (hy : y ≠ []) :
    extract_json_from_response (serializeReply x y) =
      .ok (Json.obj [(replyKey, Json.str x), (titleKey, Json.str y)]) := by
  unfold extract_json_from_response
  rw [json_loads_serializeReply]
  dsimp only
  rw [if_pos]
  have e1 : truthy (jlookup [(replyKey, Json.str x), (titleKey, Json.str y)] replyKey) =
      !x.isEmpty := rfl
  have e2 : truthy (jlookup [(replyKey, Json.str x), (titleKey, Json.str y)] titleKey) =
      !y.isEmpty := rfl
  rw [e1, e2]
  cases x with
  | nil => exact absurd rfl hx
  | cons a xs =>
    cases y with
    | nil => exact absurd rfl hy
    | cons b ys => rfl

/-- C9 witness: the round trip evaluated at concrete strings. -/
theorem C9_witness :
    serializeReply (tl "x") (tl "y") = tl "\x7b\"reply\": \"x\", \"title\": \"y\"\x7d" ∧
    extract_json_from_response (serializeReply (tl "x") (tl "y")) =
      .ok (Json.obj [(replyKey, Json.str (tl "x")), (titleKey, Json.str (tl "y"))]) :=
  ⟨rfl, C9_roundtrip (tl "x") (tl "y") (by decide) (by decide)⟩

end Ngm
